import Mathlib

/-!
Verification of the TacticalMesh command dispatch and dashboard layer.

The repository's checked-in sources are the operator dashboard
(`frontend/src/components/CommandsPanel.tsx` and friends).  The controller
core (lifecycle manager, path selector, ack ingestor, timeout sweeper,
storage contract) is described by the specification but its code is not in
the tree, so those components are modelled from the specification text;
each such definition says so in its doc comment.  Dashboard behaviour is
embedded directly from the TypeScript source.
-/

namespace TacticalMesh

/-! ## Command lifecycle (modelled from the spec, section 4.3) -/

/-- The eight lifecycle states of a command (spec section 4.3). -/
inductive CommandStatus
  | pending
  | sent
  | acknowledged
  | executing
  | completed
  | failed
  | timeout
  | cancelled
deriving DecidableEq, Repr, Fintype

/-- Modelled from the spec: terminal states are completed, failed, timeout,
cancelled (section 4.3). -/
def CommandStatus.isTerminal : CommandStatus → Bool
  | .completed => true
  | .failed => true
  | .timeout => true
  | .cancelled => true
  | _ => false

/-- Progress rank of a status along the forward-only lifecycle: the chain
pending, sent, acknowledged, executing in order, with every terminal state
strictly beyond the chain. -/
def CommandStatus.rank : CommandStatus → Nat
  | .pending => 0
  | .sent => 1
  | .acknowledged => 2
  | .executing => 3
  | .completed => 4
  | .failed => 4
  | .timeout => 4
  | .cancelled => 4

/-- Modelled from the spec: the explicit, closed transition table of the
Command Lifecycle Manager (section 4.3), together with the extra entries the
spec ascribes to the Delivery Scheduler (delivery exhaustion reaches failed
from pending or sent, section 4.4) and the Timeout Sweeper (every
non-terminal overdue command reaches timeout, section 4.6); cancellation is
reachable from every non-terminal state. -/
def validTransition : CommandStatus → CommandStatus → Bool
  | .pending, .sent => true
  | .sent, .acknowledged => true
  | .acknowledged, .executing => true
  | .executing, .completed => true
  | .executing, .failed => true
  | .pending, .failed => true
  | .sent, .failed => true
  | .pending, .timeout => true
  | .sent, .timeout => true
  | .acknowledged, .timeout => true
  | .executing, .timeout => true
  | .pending, .cancelled => true
  | .sent, .cancelled => true
  | .acknowledged, .cancelled => true
  | .executing, .cancelled => true
  | _, _ => false

/-- Modelled from the spec: the Ack/Result Ingestor applies a reported
status via compare-and-set; a transition outside the table (in particular a
duplicate of the current status, or one that would move the status
backward) is discarded as a logged no-op, never surfaced as a caller error
(sections 4.3, 4.5, 7). -/
def applyReport (current reported : CommandStatus) : CommandStatus :=
  if validTransition current reported then reported else current

/-- Modelled from the spec: the Timeout Sweeper transitions a non-terminal
command whose deadline has elapsed to timeout, and leaves every other
command untouched (section 4.6).  `now` and the deadline are instants in
milliseconds. -/
def sweepStatus (now deadline : Nat) (current : CommandStatus) : CommandStatus :=
  if current.isTerminal then current
  else if deadline < now then .timeout
  else current

/-- Modelled from the spec: the Delivery Scheduler advances a pending
command to sent once hop-level transport confirmation arrives; any other
state is left untouched (section 4.4). -/
def markSent (current : CommandStatus) : CommandStatus :=
  if current = .pending then .sent else current

/-- Opaque structured JSON payload carried by a command. -/
inductive Json
  | null
  | bool (b : Bool)
  | num (n : Int)
  | str (s : String)
  | arr (elems : List Json)
  | obj (fields : List (String × Json))

/-- A stored command record (data model, spec section 3). -/
structure Command where
  id : String
  target_node_id : String
  command_type : String
  payload : Json
  status : CommandStatus

/-- Outcome of the cancel operation exposed to the dashboard (spec
section 6: ack or already-terminal). -/
inductive CancelOutcome
  | ack
  | alreadyTerminal
deriving DecidableEq, Repr

/-- Modelled from the spec: cancel succeeds only while the command is
non-terminal; on a terminal command it returns an already-terminal
condition and does not mutate the record (section 4.3). -/
def cancelCommand (c : Command) : CancelOutcome × Command :=
  if c.status.isTerminal then (.alreadyTerminal, c)
  else (.ack, { c with status := .cancelled })

/-- The wire key of a status, as it appears in API responses and in the
dashboard's `command.status` strings. -/
def CommandStatus.key : CommandStatus → String
  | .pending => "pending"
  | .sent => "sent"
  | .acknowledged => "acknowledged"
  | .executing => "executing"
  | .completed => "completed"
  | .failed => "failed"
  | .timeout => "timeout"
  | .cancelled => "cancelled"

/-- All eight lifecycle states. -/
def allStatuses : List CommandStatus :=
  [.pending, .sent, .acknowledged, .executing, .completed, .failed, .timeout, .cancelled]

/-- The wire keys of the lifecycle state set of the spec (section 4.3). -/
def lifecycleStateKeys : List String := allStatuses.map CommandStatus.key

/-- Modelled from the spec: the enumerated command types of the data model
(section 3). -/
def specCommandTypes : List String :=
  ["ping", "reload_config", "update_config", "change_role", "custom"]

/-! ## Storage contract: list and create (modelled from the spec,
sections 4.3 and 6) -/

/-- Query parameters of the list endpoint as assembled by the dashboard's
`fetchCommands` (CommandsPanel.tsx lines 94-99). -/
structure GetCommandsQuery where
  page : Nat
  page_size : Nat
  status_filter : Option String
  target_node_id : Option String
deriving DecidableEq, Repr

/-- Response shape of the list endpoint (`CommandListResponse`). -/
structure CommandListResponse where
  commands : List Command
  total : Nat
  page : Nat
  page_size : Nat

/-- Modelled from the spec: a command matches the optional status and
target-node filters of the range query (section 6). -/
def matchesFilters (status_filter target_filter : Option String) (c : Command) : Bool :=
  (match status_filter with
    | none => true
    | some s => c.status.key == s)
  && (match target_filter with
    | none => true
    | some t => c.target_node_id == t)

/-- Modelled from the spec: `list_commands` runs the filtered, 1-based
paginated range query and returns the requested page plus the total count
of all matching commands (section 6). -/
def listCommands (store : List Command) (q : GetCommandsQuery) : CommandListResponse :=
  let matching := store.filter (matchesFilters q.status_filter q.target_node_id)
  { commands := (matching.drop ((q.page - 1) * q.page_size)).take q.page_size
    total := matching.length
    page := q.page
    page_size := q.page_size }

/-- Controller-side store: the node registry plus the command records. -/
structure Store where
  knownNodes : List String
  commands : List Command

/-- Error taxonomy of the create endpoint (spec section 7). -/
inductive CreateError
  | validationError (detail : String)
  | storageUnavailable
deriving DecidableEq, Repr

/-- Modelled from the spec: `create` validates the target is known and the
request well formed, then persists the new command as pending atomically;
on any failure (validation or storage) the store is unchanged and no record
is created (sections 4.3 and 7).  `storageOk` stands for the storage
collaborator accepting the single atomic persist. -/
def createCommand (store : Store) (storageOk : Bool) (newId target ctype : String)
    (payload : Json) : Except CreateError String × Store :=
  if !store.knownNodes.contains target then
    (.error (.validationError "unknown target"), store)
  else if !specCommandTypes.contains ctype then
    (.error (.validationError "malformed request"), store)
  else if !storageOk then
    (.error .storageUnavailable, store)
  else
    (.ok newId,
     { store with
        commands := { id := newId, target_node_id := target, command_type := ctype,
                      payload := payload, status := .pending } :: store.commands })

/-! ## Dashboard embedding (from frontend/src/components/CommandsPanel.tsx) -/

/-- The `statusIcons` record of CommandsPanel.tsx (lines 53-61), as an
association list from status key to the rendered icon element; a status
missing from the list renders as an undefined lookup. -/
def statusIcons : List (String × String) :=
  [("pending", "HourglassEmpty warning"),
   ("sent", "Send info"),
   ("acknowledged", "CheckCircle info"),
   ("executing", "CircularProgress 16"),
   ("completed", "CheckCircle success"),
   ("failed", "Error error"),
   ("timeout", "Error warning")]

/-- The `statusColors` record of CommandsPanel.tsx (lines 63-71). -/
def statusColors : List (String × String) :=
  [("pending", "warning"),
   ("sent", "info"),
   ("acknowledged", "info"),
   ("executing", "info"),
   ("completed", "success"),
   ("failed", "error"),
   ("timeout", "warning")]

/-- The values of the status-filter MenuItems of the commands panel
(CommandsPanel.tsx lines 197-202); the empty string is the All entry. -/
def statusFilterMenuItems : List String :=
  ["", "pending", "sent", "completed", "failed"]

/-- The values of the command-type MenuItems of the create dialog
(CommandsPanel.tsx lines 317-321). -/
def commandTypeMenuItems : List String :=
  ["ping", "reload_config", "update_config", "change_role", "custom"]

/-- The `CommandCreate` body held in the create dialog. -/
structure CommandCreate where
  target_node_id : String
  command_type : String
  payload : Json

/-- The initial `newCommand` state (CommandsPanel.tsx lines 83-87):
target from the selected node or empty, type ping, payload the empty
JSON object. -/
def initialNewCommand (selectedNodeId : Option String) : CommandCreate :=
  { target_node_id := selectedNodeId.getD ""
    command_type := "ping"
    payload := Json.obj [] }

/-- The query `fetchCommands` sends (CommandsPanel.tsx lines 94-99): the
1-based page is the 0-based UI page plus one, and the falsy-guarded filters
are omitted (undefined) when empty. -/
def fetchCommandsRequest (uiPage rowsPerPage : Nat) (statusFilter : String)
    (selectedNodeId : Option String) : GetCommandsQuery :=
  { page := uiPage + 1
    page_size := rowsPerPage
    status_filter := if statusFilter = "" then none else some statusFilter
    target_node_id :=
      match selectedNodeId with
      | none => none
      | some s => if s = "" then none else some s }

/-- The count handed to TablePagination (CommandsPanel.tsx line 283) is the
`total` of the last list response. -/
def displayedPaginationCount (response : CommandListResponse) : Nat :=
  response.total

/-- The actions cell renders the cancel IconButton only when
`command.status === 'pending'` (CommandsPanel.tsx line 262). -/
def showCancelAction (status : String) : Bool :=
  status == "pending"

/-- Dialog-related state of the commands panel. -/
structure PanelState where
  createDialogOpen : Bool
  createError : Option String
  creating : Bool
  newCommand : CommandCreate

/-- The error message shown on a failed create (CommandsPanel.tsx
line 142): the server's detail when present and non-empty, otherwise the
generic message. -/
def createErrorMessage (detail : Option String) : String :=
  match detail with
  | some d => if d = "" then "Failed to create command" else d
  | none => "Failed to create command"

/-- `handleCreateCommand` (CommandsPanel.tsx lines 132-147): on success the
dialog closes and `newCommand` resets; on failure the dialog state is kept,
`createError` is set to the server detail or the generic message; `creating`
clears either way. -/
def handleCreateCommand (st : PanelState) (apiResult : Except (Option String) Unit) :
    PanelState :=
  match apiResult with
  | .ok _ =>
    { st with
       createDialogOpen := false
       createError := none
       creating := false
       newCommand := { target_node_id := "", command_type := "ping", payload := Json.obj [] } }
  | .error detail =>
    { st with createError := some (createErrorMessage detail), creating := false }

/-- The payload TextField onChange handler (CommandsPanel.tsx lines
327-333): the entered text is run through JSON.parse; when parsing fails
the stored payload is left unchanged.  `parse` abstracts JSON.parse,
returning none exactly when the text is not valid JSON. -/
def payloadFieldChange (parse : String → Option Json) (nc : CommandCreate)
    (text : String) : CommandCreate :=
  match parse text with
  | some j => { nc with payload := j }
  | none => nc

/-! ## Path selector (modelled from the spec, section 4.2) -/

/-- A connectivity-graph snapshot as returned by `get_graph`: the known
nodes and the directed links with their link-quality scores. -/
structure Graph where
  nodes : List String
  edges : List (String × String × ℚ)

/-- The neighbors of a node in a snapshot. -/
def Graph.neighbors (g : Graph) (n : String) : List String :=
  (g.edges.filter (fun e => e.1 == n)).map (fun e => e.2.1)

/-- The link quality of a directed edge, when present. -/
def Graph.quality (g : Graph) (a b : String) : Option ℚ :=
  (g.edges.find? (fun e => e.1 == a && e.2.1 == b)).map (fun e => e.2.2)

/-- Modelled from the spec: inverse link-quality as edge cost
(section 4.2).  Absent edges never occur on enumerated paths. -/
def Graph.edgeCost (g : Graph) (a b : String) : ℚ :=
  match g.quality a b with
  | some q => 1 / q
  | none => 0

/-- Total cost of a hop sequence: the sum of the costs of its consecutive
edges. -/
def Graph.pathCost (g : Graph) : List String → ℚ
  | a :: b :: rest => g.edgeCost a b + g.pathCost (b :: rest)
  | _ => 0

/-- Depth-first enumeration of the simple paths from `current` to `target`
that avoid `visited`; each produced path starts at `current` and ends at
`target`.  `fuel` bounds the recursion by the number of nodes. -/
def simplePathsFrom (g : Graph) (target : String) :
    Nat → String → List String → List (List String)
  | 0, _, _ => []
  | fuel + 1, current, visited =>
    if current = target then [[current]]
    else
      ((g.neighbors current).filter (fun n => !(n ∈ current :: visited))).foldr
        (fun n acc =>
          ((simplePathsFrom g target fuel n (current :: visited)).map
            (fun p => current :: p)) ++ acc)
        []

/-- The candidate relay paths from source to target over a snapshot. -/
def candidatePaths (g : Graph) (source target : String) : List (List String) :=
  simplePathsFrom g target (g.nodes.length + 1) source []

/-- The comparison key of a candidate path: cost first, then hop count,
then the node-id sequence itself (spec section 4.2 tie-break order). -/
def pathKey (g : Graph) (p : List String) : ℚ × Nat × List String :=
  (g.pathCost p, p.length, p)

/-- Lexicographic comparison of node-id sequences. -/
def lexLe : List String → List String → Bool
  | [], _ => true
  | _ :: _, [] => false
  | a :: as, b :: bs => if a < b then true else if b < a then false else lexLe as bs

/-- Lexicographic combination of a linear order on the first component with
a boolean comparison on the second. -/
def ordLe {α β : Type} [LinearOrder α] (le2 : β → β → Bool) (x y : α × β) : Bool :=
  if x.1 < y.1 then true
  else if y.1 < x.1 then false
  else le2 x.2 y.2

/-- Comparison of path keys: strictly cheaper wins, then strictly fewer
hops, then the lexicographically smaller node-id sequence. -/
def keyLe : ℚ × Nat × List String → ℚ × Nat × List String → Bool :=
  ordLe (ordLe lexLe)

/-- The better of two candidate paths under the key order; on a tie the
first argument is kept. -/
def betterPath (g : Graph) (p q : List String) : List String :=
  if keyLe (pathKey g p) (pathKey g q) then p else q

/-- Modelled from the spec: `select_path` returns the minimal candidate
path under the cost / hop-count / lexicographic order, or none (NoRoute)
when source and target are disconnected (section 4.2). -/
def selectPath (g : Graph) (source target : String) : Option (List String) :=
  match candidatePaths g source target with
  | [] => none
  | p :: ps => some (ps.foldl (betterPath g) p)

/-! ## Concrete instances used to exercise the theorems -/

/-- The connectivity snapshot of the spec's routing scenario (section 8):
A reports neighbor B with quality 0.9, B reports A at 0.9 and C at 0.8. -/
def demoGraph : Graph :=
  { nodes := ["A", "B", "C"]
    edges := [("A", "B", (9 : ℚ) / 10), ("B", "A", (9 : ℚ) / 10), ("B", "C", (8 : ℚ) / 10)] }

/-- A command record sitting in the sent state. -/
def sentCommand : Command :=
  { id := "cmd-1"
    target_node_id := "node-1"
    command_type := "ping"
    payload := Json.obj []
    status := .sent }

/-! ## Helper lemmas: the path-key order is a total preorder and the fold
picks a minimum -/

theorem lexLe_refl : ∀ a, lexLe a a = true
  | [] => rfl
  | x :: xs => by simp [lexLe, lexLe_refl xs]

theorem lexLe_total : ∀ a b, lexLe a b = true ∨ lexLe b a = true
  | [], _ => Or.inl rfl
  | _ :: _, [] => Or.inr rfl
  | a :: as, b :: bs => by
    rcases lt_trichotomy a b with hab | rfl | hab
    · exact Or.inl (by simp [lexLe, hab])
    · rcases lexLe_total as bs with h | h
      · exact Or.inl (by simp [lexLe, h])
      · exact Or.inr (by simp [lexLe, h])
    · exact Or.inr (by simp [lexLe, hab])

theorem lexLe_trans : ∀ a b c, lexLe a b = true → lexLe b c = true → lexLe a c = true
  | [], _, _, _, _ => rfl
  | _ :: _, [], _, h1, _ => by simp [lexLe] at h1
  | _ :: _, _ :: _, [], _, h2 => by simp [lexLe] at h2
  | a :: as, b :: bs, c :: cs, h1, h2 => by
    simp only [lexLe] at h1 h2 ⊢
    rcases lt_trichotomy a b with hab | rfl | hab
    · rcases lt_trichotomy b c with hbc | rfl | hbc
      · simp [hab.trans hbc]
      · simp [hab]
      · rw [if_neg (lt_asymm hbc), if_pos hbc] at h2
        exact absurd h2 (by simp)
    · rw [if_neg (lt_irrefl a), if_neg (lt_irrefl a)] at h1
      rcases lt_trichotomy a c with hac | rfl | hac
      · simp [hac]
      · rw [if_neg (lt_irrefl a), if_neg (lt_irrefl a)] at h2 ⊢
        exact lexLe_trans as bs cs h1 h2
      · rw [if_neg (lt_asymm hac), if_pos hac] at h2
        exact absurd h2 (by simp)
    · rw [if_neg (lt_asymm hab), if_pos hab] at h1
      exact absurd h1 (by simp)

theorem ordLe_refl {α β : Type} [LinearOrder α] (le2 : β → β → Bool)
    (h2 : ∀ b, le2 b b = true) (x : α × β) : ordLe le2 x x = true := by
  simp [ordLe, h2]

theorem ordLe_total {α β : Type} [LinearOrder α] (le2 : β → β → Bool)
    (h2 : ∀ a b, le2 a b = true ∨ le2 b a = true) (x y : α × β) :
    ordLe le2 x y = true ∨ ordLe le2 y x = true := by
  unfold ordLe
  rcases lt_trichotomy x.1 y.1 with h | h | h
  · exact Or.inl (by simp [h])
  · rw [h]
    rcases h2 x.2 y.2 with hb | hb
    · exact Or.inl (by simp [hb])
    · exact Or.inr (by simp [hb])
  · exact Or.inr (by simp [h])

theorem ordLe_trans {α β : Type} [LinearOrder α] (le2 : β → β → Bool)
    (ht : ∀ a b c, le2 a b = true → le2 b c = true → le2 a c = true)
    (x y z : α × β) (h1 : ordLe le2 x y = true) (h2 : ordLe le2 y z = true) :
    ordLe le2 x z = true := by
  unfold ordLe at h1 h2 ⊢
  rcases lt_trichotomy x.1 y.1 with hxy | hxy | hxy
  · rcases lt_trichotomy y.1 z.1 with hyz | hyz | hyz
    · simp [hxy.trans hyz]
    · simp [hyz ▸ hxy]
    · rw [if_neg (lt_asymm hyz), if_pos hyz] at h2
      exact absurd h2 (by simp)
  · rw [hxy, if_neg (lt_irrefl y.1), if_neg (lt_irrefl y.1)] at h1
    rw [hxy]
    rcases lt_trichotomy y.1 z.1 with hyz | hyz | hyz
    · simp [hyz]
    · rw [hyz, if_neg (lt_irrefl z.1), if_neg (lt_irrefl z.1)] at h2 ⊢
      exact ht _ _ _ h1 h2
    · rw [if_neg (lt_asymm hyz), if_pos hyz] at h2
      exact absurd h2 (by simp)
  · rw [if_neg (lt_asymm hxy), if_pos hxy] at h1
    exact absurd h1 (by simp)

theorem keyLe_refl (x : ℚ × Nat × List String) : keyLe x x = true :=
  ordLe_refl _ (fun b => ordLe_refl _ lexLe_refl b) x

theorem keyLe_total (x y : ℚ × Nat × List String) :
    keyLe x y = true ∨ keyLe y x = true :=
  ordLe_total _ (fun a b => ordLe_total _ lexLe_total a b) x y

theorem keyLe_trans (x y z : ℚ × Nat × List String)
    (h1 : keyLe x y = true) (h2 : keyLe y z = true) : keyLe x z = true :=
  ordLe_trans _ (fun a b c => ordLe_trans _ lexLe_trans a b c) x y z h1 h2

theorem betterPath_mem (g : Graph) (p q : List String) :
    betterPath g p q = p ∨ betterPath g p q = q := by
  unfold betterPath
  split_ifs <;> [exact Or.inl rfl; exact Or.inr rfl]

theorem betterPath_le_left (g : Graph) (p q : List String) :
    keyLe (pathKey g (betterPath g p q)) (pathKey g p) = true := by
  unfold betterPath
  split_ifs with h
  · exact keyLe_refl _
  · rcases keyLe_total (pathKey g p) (pathKey g q) with h2 | h2
    · exact absurd h2 h
    · exact h2

theorem betterPath_le_right (g : Graph) (p q : List String) :
    keyLe (pathKey g (betterPath g p q)) (pathKey g q) = true := by
  unfold betterPath
  split_ifs with h
  · exact h
  · exact keyLe_refl _

theorem foldl_betterPath_spec (g : Graph) :
    ∀ (ps : List (List String)) (p : List String),
      List.foldl (betterPath g) p ps ∈ p :: ps ∧
      ∀ q ∈ p :: ps, keyLe (pathKey g (List.foldl (betterPath g) p ps)) (pathKey g q) = true
  | [], p => by
    refine ⟨List.mem_cons_self _ _, ?_⟩
    intro q hq
    rcases List.mem_cons.mp hq with rfl | hq
    · exact keyLe_refl _
    · exact absurd hq (List.not_mem_nil _)
  | r :: rs, p => by
    have ih := foldl_betterPath_spec g rs (betterPath g p r)
    have hfold : List.foldl (betterPath g) p (r :: rs)
        = List.foldl (betterPath g) (betterPath g p r) rs := rfl
    rw [hfold]
    constructor
    · rcases List.mem_cons.mp ih.1 with h | h
      · rw [h]
        rcases betterPath_mem g p r with hb | hb <;> rw [hb]
        · exact List.mem_cons_self _ _
        · exact List.mem_cons_of_mem _ (List.mem_cons_self _ _)
      · exact List.mem_cons_of_mem _ (List.mem_cons_of_mem _ h)
    · intro q hq
      rcases List.mem_cons.mp hq with rfl | hq
      · exact keyLe_trans _ _ _ (ih.2 _ (List.mem_cons_self _ _)) (betterPath_le_left g q r)
      · rcases List.mem_cons.mp hq with rfl | hq2
        · exact keyLe_trans _ _ _ (ih.2 _ (List.mem_cons_self _ _)) (betterPath_le_right g p q)
        · exact ih.2 _ (List.mem_cons_of_mem _ hq2)

/-! ## Claim theorems -/

/-- C1 counterexample: the sent state is non-terminal, yet the commands
panel does not make the cancel action available for it — the cancel
IconButton is rendered only when the status is pending, so cancellation is
not available in the dashboard for every non-terminal command. -/
theorem cancel_unavailable_for_sent :
    CommandStatus.isTerminal .sent = false ∧
    showCancelAction (CommandStatus.key .sent) = false := by decide

/-- C1 (amended): the backend cancel operation succeeds on every command in
a non-terminal state, moving it to cancelled, and on a command already in a
terminal state it returns an already-terminal condition without mutating
the record; the dashboard, however, exposes the cancel action only for
commands whose status is pending. -/
theorem cancel_semantics (c : Command) :
    (c.status.isTerminal = false →
      (cancelCommand c).1 = CancelOutcome.ack ∧
      (cancelCommand c).2.status = CommandStatus.cancelled) ∧
    (c.status.isTerminal = true →
      (cancelCommand c).1 = CancelOutcome.alreadyTerminal ∧
      (cancelCommand c).2 = c) ∧
    (showCancelAction c.status.key = true ↔ c.status = CommandStatus.pending) := by
  obtain ⟨id, tgt, ct, pl, st⟩ := c
  cases st <;>
    simp [cancelCommand, showCancelAction, CommandStatus.key, CommandStatus.isTerminal]

/-- Witness for the amended C1 statement at a concrete sent command. -/
theorem cancel_semantics_witness :
    (cancelCommand sentCommand).1 = CancelOutcome.ack ∧
    (cancelCommand sentCommand).2.status = CommandStatus.cancelled :=
  (cancel_semantics sentCommand).1 rfl

/-- C2: every lifecycle operation is forward-only — report ingestion, the
timeout sweep, and delivery scheduling never decrease the progress rank of
a command's status; ingestion either leaves the status unchanged or applies
an entry of the transition table; and a report that would move the status
backward is discarded, leaving the stored status untouched, without an
error. -/
theorem status_forward_only :
    (∀ c r : CommandStatus, c.rank ≤ (applyReport c r).rank) ∧
    (∀ c r : CommandStatus,
      applyReport c r = c ∨ validTransition c (applyReport c r) = true) ∧
    (∀ (now deadline : Nat) (c : CommandStatus), c.rank ≤ (sweepStatus now deadline c).rank) ∧
    (∀ c : CommandStatus, c.rank ≤ (markSent c).rank) ∧
    (∀ c r : CommandStatus, r.rank < c.rank → applyReport c r = c) := by
  refine ⟨by decide, by decide, ?_, by decide, by decide⟩
  intro now deadline c
  unfold sweepStatus
  split_ifs
  · exact le_refl _
  · cases c <;> decide
  · exact le_refl _

/-- Witness for C2 at a concrete backward report: a completed command that
receives a stale sent report keeps its status. -/
theorem status_forward_only_witness :
    applyReport CommandStatus.completed CommandStatus.sent = CommandStatus.completed :=
  status_forward_only.2.2.2.2 .completed .sent (by decide)

/-- C3: a list query returns at most page_size commands and a total equal
to the number of commands matching the filter, independent of the page and
page size requested; the dashboard requests 1-based pages (its 0-based UI
page plus one) and displays the returned total as the pagination count. -/
theorem list_commands_pagination :
    (∀ (store : List Command) (q : GetCommandsQuery),
      (listCommands store q).commands.length ≤ q.page_size) ∧
    (∀ (store : List Command) (sf tf : Option String) (page pageSize : Nat),
      (listCommands store ⟨page, pageSize, sf, tf⟩).total
        = (store.filter (matchesFilters sf tf)).length) ∧
    (∀ (store : List Command) (sf tf : Option String) (p ps q qs : Nat),
      (listCommands store ⟨p, ps, sf, tf⟩).total
        = (listCommands store ⟨q, qs, sf, tf⟩).total) ∧
    (∀ (uiPage rowsPerPage : Nat) (statusFilter : String) (sel : Option String),
      (fetchCommandsRequest uiPage rowsPerPage statusFilter sel).page = uiPage + 1) ∧
    (∀ response : CommandListResponse, displayedPaginationCount response = response.total) := by
  refine ⟨?_, fun store sf tf page pageSize => rfl, fun store sf tf p ps q qs => rfl,
    fun uiPage rowsPerPage statusFilter sel => rfl, fun response => rfl⟩
  intro store q
  simp only [listCommands, List.length_take]
  omega

/-- C4: select_path is deterministic — over one unchanged snapshot repeated
invocations return the same hop sequence — and any returned path is a
candidate path that is minimal under the tie-break order: smallest total
inverse link-quality cost first, then fewest hops, then the
lexicographically smallest node-id sequence. -/
theorem selectPath_deterministic_tiebreak (g : Graph) (source target : String) :
    selectPath g source target = selectPath g source target ∧
    ∀ p, selectPath g source target = some p →
      p ∈ candidatePaths g source target ∧
      ∀ q ∈ candidatePaths g source target,
        keyLe (pathKey g p) (pathKey g q) = true := by
  refine ⟨rfl, ?_⟩
  intro p hp
  unfold selectPath at hp
  rcases hcand : candidatePaths g source target with _ | ⟨r, rs⟩ <;> rw [hcand] at hp
  · simp at hp
  · have hspec := foldl_betterPath_spec g rs r
    have hp2 : List.foldl (betterPath g) r rs = p := by simpa using hp
    rw [← hp2]
    exact hspec

/-- Witness for C4 on the spec's routing scenario: the selected path from A
to C is a candidate and minimal under the tie-break order. -/
theorem selectPath_deterministic_tiebreak_witness :
    ["A", "B", "C"] ∈ candidatePaths demoGraph "A" "C" ∧
    ∀ q ∈ candidatePaths demoGraph "A" "C",
      keyLe (pathKey demoGraph ["A", "B", "C"]) (pathKey demoGraph q) = true :=
  (selectPath_deterministic_tiebreak demoGraph "A" "C").2 ["A", "B", "C"] (by decide)

/-- C5: acknowledgment ingestion is idempotent — applying the identical
report twice yields the same lifecycle state as applying it once, for every
stored status and every reported status. -/
theorem ack_ingestion_idempotent :
    ∀ c r : CommandStatus, applyReport (applyReport c r) r = applyReport c r := by
  decide

/-- C6: command creation is atomic at the interface — a create call either
fully succeeds, leaving the new command durably observable as pending, or
fully fails with the store unchanged; in the dashboard a failed create
keeps the dialog state, shows the server's detail message or the generic
message, and leaves the drafted command untouched, while a successful
create closes the dialog. -/
theorem create_atomic :
    (∀ (store : Store) (ok : Bool) (newId target ctype : String) (payload : Json)
        (e : CreateError),
      (createCommand store ok newId target ctype payload).1 = .error e →
      (createCommand store ok newId target ctype payload).2 = store) ∧
    (∀ (store : Store) (ok : Bool) (newId target ctype : String) (payload : Json)
        (cid : String),
      (createCommand store ok newId target ctype payload).1 = .ok cid →
      ∃ c ∈ (createCommand store ok newId target ctype payload).2.commands,
        c.id = cid ∧ c.status = CommandStatus.pending) ∧
    (∀ (st : PanelState) (detail : Option String),
      (handleCreateCommand st (.error detail)).createDialogOpen = st.createDialogOpen ∧
      (handleCreateCommand st (.error detail)).createError
        = some (createErrorMessage detail) ∧
      (handleCreateCommand st (.error detail)).newCommand = st.newCommand) ∧
    (∀ (st : PanelState) (u : Unit),
      (handleCreateCommand st (.ok u)).createDialogOpen = false) := by
  refine ⟨?_, ?_, fun st detail => ⟨rfl, rfl, rfl⟩, fun st u => rfl⟩
  · intro store ok newId target ctype payload e h
    unfold createCommand at h ⊢
    split_ifs at h ⊢ <;> rfl
  · intro store ok newId target ctype payload cid h
    unfold createCommand at h ⊢
    split_ifs at h ⊢
    refine ⟨{ id := newId, target_node_id := target, command_type := ctype,
              payload := payload, status := .pending },
            List.mem_cons_self _ _, ?_, rfl⟩
    simpa using h

/-- Witness for C6: creating against an empty registry fails validation and
leaves the store unchanged. -/
theorem create_atomic_witness :
    (createCommand ⟨[], []⟩ true "id1" "n1" "ping" (Json.obj [])).2 = ⟨[], []⟩ :=
  create_atomic.1 ⟨[], []⟩ true "id1" "n1" "ping" (Json.obj [])
    (.validationError "unknown target") rfl

/-- C7: the create dialog offers exactly the five enumerated command types
of the spec's data model — ping, reload_config, update_config, change_role,
custom — with no duplicates and nothing else, and the drafted command
defaults to ping. -/
theorem command_type_menu_exact :
    commandTypeMenuItems = specCommandTypes ∧
    commandTypeMenuItems = ["ping", "reload_config", "update_config", "change_role", "custom"] ∧
    commandTypeMenuItems.Nodup ∧
    (∀ sel : Option String, (initialNewCommand sel).command_type = "ping") :=
  ⟨rfl, rfl, by decide, fun sel => rfl⟩

/-- C8: contrary to the claim, the status icon and color maps of the
commands panel are not defined on every lifecycle state — cancelled is in
the spec's lifecycle state set, yet it is exactly the status whose lookup
in both maps is undefined, so rendering a cancelled command looks up an
undefined entry. -/
theorem status_maps_missing_cancelled :
    "cancelled" ∈ lifecycleStateKeys ∧
    (∀ c : CommandStatus,
      (statusIcons.lookup c.key = none ↔ c = CommandStatus.cancelled) ∧
      (statusColors.lookup c.key = none ↔ c = CommandStatus.cancelled)) := by
  decide

/-- C9: the payload drafted in the create dialog is always either the
initial empty JSON object or a value produced by the JSON parse of some
entered text — an edit whose text does not parse leaves the stored payload
unchanged, so no other payload value can ever be submitted. -/
theorem payload_always_parsed (parse : String → Option Json) (sel : Option String)
    (edits : List String) :
    ((edits.foldl (payloadFieldChange parse) (initialNewCommand sel)).payload
        = Json.obj [] ∨
      ∃ s, parse s
        = some (edits.foldl (payloadFieldChange parse) (initialNewCommand sel)).payload) ∧
    (∀ (nc : CommandCreate) (text : String),
      parse text = none → payloadFieldChange parse nc text = nc) := by
  constructor
  · have step : ∀ (es : List String) (nc : CommandCreate),
        (nc.payload = Json.obj [] ∨ ∃ s, parse s = some nc.payload) →
        ((es.foldl (payloadFieldChange parse) nc).payload = Json.obj [] ∨
          ∃ s, parse s = some (es.foldl (payloadFieldChange parse) nc).payload) := by
      intro es
      induction es with
      | nil => exact fun nc h => h
      | cons e es ih =>
        intro nc h
        rw [List.foldl_cons]
        apply ih
        cases hp : parse e with
        | none => simpa [payloadFieldChange, hp] using h
        | some j => exact Or.inr ⟨e, by simp [payloadFieldChange, hp]⟩
    exact step edits _ (Or.inl rfl)
  · intro nc text h
    simp [payloadFieldChange, h]

/-- Witness for C9: with a parse that rejects everything, an edit leaves
the drafted command untouched. -/
theorem payload_always_parsed_witness :
    payloadFieldChange (fun _ => none) (initialNewCommand none) "not json"
      = initialNewCommand none :=
  (payload_always_parsed (fun _ => none) none []).2 (initialNewCommand none) "not json" rfl

/-- C10: the dashboard's status filter offers exactly All (the empty
string), pending, sent, completed, and failed — a strict subset of the
lifecycle states that omits acknowledged, executing, timeout, and cancelled
— and when All is selected the status_filter parameter is omitted from the
request entirely rather than sent as an empty string, while a non-empty
selection is sent as given. -/
theorem status_filter_strict_subset :
    statusFilterMenuItems = ["", "pending", "sent", "completed", "failed"] ∧
    (∀ s ∈ statusFilterMenuItems, s = "" ∨ s ∈ lifecycleStateKeys) ∧
    "acknowledged" ∉ statusFilterMenuItems ∧
    "executing" ∉ statusFilterMenuItems ∧
    "timeout" ∉ statusFilterMenuItems ∧
    "cancelled" ∉ statusFilterMenuItems ∧
    (∀ (uiPage rows : Nat) (sel : Option String),
      (fetchCommandsRequest uiPage rows "" sel).status_filter = none) ∧
    (∀ (uiPage rows : Nat) (f : String) (sel : Option String), f ≠ "" →
      (fetchCommandsRequest uiPage rows f sel).status_filter = some f) := by
  refine ⟨rfl, by decide, by decide, by decide, by decide, by decide,
    fun uiPage rows sel => rfl, ?_⟩
  intro uiPage rows f sel h
  simp [fetchCommandsRequest, h]

/-- Witness for C10 at a concrete non-empty filter selection. -/
theorem status_filter_strict_subset_witness :
    (fetchCommandsRequest 0 10 "pending" none).status_filter = some "pending" :=
  status_filter_strict_subset.2.2.2.2.2.2.2 0 10 "pending" none (by decide)

end TacticalMesh
